import Mathlib

/-!
Verification development for the jsdownloader download-orchestration engine.

The definitions below are a shallow embedding of the JavaScript sources:
`src/lib/downloadManager.js` (strategy selection, sequential and concurrent
batch runners, target-list parsing), `src/lib/httpDownloader.js` (retry
wrapper and HTTP resume logic), `src/lib/progress.js` (progress tracker),
the FileManager resume store, and the per-protocol capability predicates of
`src/lib/sftpDownloader.js`, the FTP, torrent and YouTube downloaders.

JavaScript strings are modelled as Lean `String`/`List Char`; JavaScript
`Map` objects as association lists; thrown exceptions as `Except.error`;
numeric byte counters and timestamps as `Nat`.
-/

deriving instance DecidableEq for Except

namespace JSD

/-! ### Model of the WHATWG URL parser (Node's `new URL`, an external library)

The repository's capability predicates consult only `protocol` and
`hostname` of a parsed URL, so the model extracts exactly those two
components: a scheme prefix (a letter followed by letters, digits, `+`,
`-`, `.`, then a colon) and, for `//`-authority forms, the host part with
userinfo and port stripped and the result lowercased. Parsing fails when
there is no valid scheme, or when a `//` authority has an empty host. -/

/-- Characters allowed in a URL scheme after the leading letter. -/
def isSchemeChar (c : Char) : Bool :=
  c.isAlpha || c.isDigit || c == '+' || c == '-' || c == '.'

/-- Split a character list into a scheme and the remainder after the colon;
fails when the string does not begin with a valid scheme followed by a colon. -/
def splitScheme (cs : List Char) : Option (List Char × List Char) :=
  match cs with
  | [] => none
  | c :: _ =>
    if c.isAlpha then
      match cs.dropWhile isSchemeChar with
      | k :: r => if k == ':' then some (cs.takeWhile isSchemeChar, r) else none
      | [] => none
    else none

/-- Extract the hostname from the part of a URL after the scheme's colon:
for a `//` authority, strip userinfo (everything up to the last `@`) and
the port, and lowercase; an empty host fails; URLs without a `//`
authority (such as `magnet:` URIs) get an empty hostname. -/
def hostOf (afterColon : List Char) : Option String :=
  match afterColon with
  | '/' :: '/' :: r =>
    let authority := r.takeWhile (fun c => !(c == '/' || c == '?' || c == '#'))
    let afterUser :=
      if authority.contains '@' then
        (authority.reverse.takeWhile (fun c => !(c == '@'))).reverse
      else authority
    let host := afterUser.takeWhile (fun c => !(c == ':'))
    if host.isEmpty then none else some (String.mk (host.map Char.toLower))
  | _ => some ""

/-- Components of a parsed URL consulted by the capability predicates. -/
structure Url where
  protocol : String
  hostname : String
deriving DecidableEq, Repr

/-- Model of `new URL(s)` restricted to the components the repository reads. -/
def parseURL (s : String) : Option Url :=
  match splitScheme s.data with
  | none => none
  | some (scheme, rest) =>
    match hostOf rest with
    | none => none
    | some h => some ⟨String.mk (scheme.map Char.toLower) ++ ":", h⟩

/-- Boolean test that the pattern occurs as a contiguous substring. -/
def containsSub (s pat : String) : Bool := decide (pat.data <:+: s.data)

/-- Boolean test that a string starts with the given literal. -/
def startsWithStr (s pre : String) : Bool := decide (pre.data <+: s.data)

/-! ### Capability predicates (one per transfer strategy) -/

/-- HttpDownloader.isValidUrl: the URL parses and its protocol is in
the list `[http:, https:]` (httpDownloader.js lines 205-212). -/
def isValidUrl (url : String) : Bool :=
  match parseURL url with
  | some u => ["http:", "https:"].contains u.protocol
  | none => false

/-- TorrentDownloader.isValidMagnetUri: the string starts with `magnet:`
(torrent downloader, lines 405-407). -/
def isValidMagnetUri (uri : String) : Bool :=
  startsWithStr uri "magnet:"

/-- FtpDownloader.isValidFtpUrl: the URL parses and its protocol is `ftp:`
(FTP downloader, lines 162-169). -/
def isValidFtpUrl (url : String) : Bool :=
  match parseURL url with
  | some u => u.protocol == "ftp:"
  | none => false

/-- SftpDownloader.isValidSftpUrl: the URL parses and its protocol is `sftp:`
(sftpDownloader.js lines 148-155). -/
def isValidSftpUrl (url : String) : Bool :=
  match parseURL url with
  | some u => u.protocol == "sftp:"
  | none => false

/-- Model of JavaScript `toLowerCase` on the ASCII range. -/
def lowercaseStr (s : String) : String := String.mk (s.data.map Char.toLower)

/-- YoutubeDownloader.isValidYouTubeUrl: the URL parses and its lowercased
hostname contains `youtube.com`, `youtu.be` or `m.youtube.com`
(YouTube downloader, lines 448-458). -/
def isValidYouTubeUrl (url : String) : Bool :=
  match parseURL url with
  | some u =>
    let hostname := lowercaseStr u.hostname
    containsSub hostname "youtube.com" || containsSub hostname "youtu.be" ||
      containsSub hostname "m.youtube.com"
  | none => false

/-! ### Strategy selection (downloadManager.js, downloadSingle, lines 28-53) -/

/-- The five transfer strategies of the orchestrator. -/
inductive Strategy where
  | torrent
  | youtube
  | ftp
  | sftp
  | http
deriving DecidableEq, Repr

/-- Strategy selection exactly as the if/else chain of `downloadSingle`
tests the capability predicates: magnet, then YouTube, then FTP, then SFTP,
then HTTP(S); when no predicate claims the target it throws
`Unsupported URL format`. -/
def downloadSingleSelect (url : String) : Except String Strategy :=
  if isValidMagnetUri url then .ok .torrent
  else if isValidYouTubeUrl url then .ok .youtube
  else if isValidFtpUrl url then .ok .ftp
  else if isValidSftpUrl url then .ok .sftp
  else if isValidUrl url then .ok .http
  else .error ("Unsupported URL format: " ++ url)

/-- Strategy selection in the priority order stated by the specification:
magnet/BitTorrent, then video-hosting, then SFTP, then FTP, then HTTP(S),
failing with an unsupported-target error when no predicate claims the
target. Written from the spec's words, to be compared with
`downloadSingleSelect`. -/
def specSelect (url : String) : Except String Strategy :=
  if isValidMagnetUri url then .ok .torrent
  else if isValidYouTubeUrl url then .ok .youtube
  else if isValidSftpUrl url then .ok .sftp
  else if isValidFtpUrl url then .ok .ftp
  else if isValidUrl url then .ok .http
  else .error ("Unsupported URL format: " ++ url)

/-! ### Target-list parsing (downloadManager.js, parseUrlsFromContent, lines 220-244) -/

/-- The newline character. -/
def nlChar : Char := Char.ofNat 10

/-- Model of JavaScript `content.split(10)` on the newline character. -/
def splitNlAux : List Char → List Char → List String
  | [], acc => [String.mk acc.reverse]
  | c :: rest, acc =>
    if c == nlChar then String.mk acc.reverse :: splitNlAux rest []
    else splitNlAux rest (c :: acc)

/-- Split a string into its newline-separated lines. -/
def splitLines (s : String) : List String := splitNlAux s.data []

/-- Model of JavaScript `String.prototype.trim`. -/
def jsTrim (s : String) : String :=
  String.mk (((s.data.dropWhile Char.isWhitespace).reverse.dropWhile
    Char.isWhitespace).reverse)

/-- A double or single quote character. -/
def isQuoteChar (c : Char) : Bool := c == Char.ofNat 34 || c == Char.ofNat 39

/-- Drop one leading quote character if present. -/
def dropLeadingQuote (l : List Char) : List Char :=
  match l with
  | [] => []
  | c :: t => if isQuoteChar c then t else c :: t

/-- Model of the replacement `line.replace` with pattern
`leading-or-trailing quote`, global: removes at most one leading and at
most one trailing quote character. -/
def stripQuotes (line : String) : String :=
  String.mk ((dropLeadingQuote (dropLeadingQuote line.data).reverse).reverse)

/-- A line is skipped (before quote stripping) when it is empty or starts
with a comment marker. -/
def isSkippedLine (line : String) : Bool :=
  line == "" || startsWithStr line "#" || startsWithStr line "//"

/-- A processed line is admitted into the batch exactly when it is a valid
HTTP(S) URL or a magnet URI. -/
def admitsLine (line : String) : Bool :=
  isValidUrl line || isValidMagnetUri line

/-- Recursive core of `parseUrlsFromContent`: returns the admitted URLs and
the lines that were warned about and skipped, both in input order. -/
def parseLines : List String → List String × List String
  | [] => ([], [])
  | raw :: rest =>
    let line := jsTrim raw
    if isSkippedLine line then parseLines rest
    else
      let stripped := stripQuotes line
      let p := parseLines rest
      if admitsLine stripped then (stripped :: p.1, p.2)
      else (p.1, stripped :: p.2)

/-- parseUrlsFromContent: split on newlines, trim, skip blanks and
comments, strip surrounding quotes, admit valid HTTP(S) URLs and magnet
URIs, and warn about every other line. First component: admitted URLs;
second component: warned-and-skipped lines. -/
def parseUrlsFromContent (content : String) : List String × List String :=
  parseLines (splitLines content)

/-- The lines of the content that survive trimming and comment skipping,
after quote stripping — the candidate targets considered for admission. -/
def processedLines (content : String) : List String :=
  (splitLines content).filterMap (fun raw =>
    if isSkippedLine (jsTrim raw) then none
    else some (stripQuotes (jsTrim raw)))

/-! ### Batch results (downloadManager.js, lines 67-196)

A batch is driven by the per-target outcome of `downloadSingle`, modelled
as a function from the target's position to `Except` (a thrown error or a
result carrying `stats.size`). In concurrent mode the completion order of
the tasks is an arbitrary permutation supplied as a parameter. -/

/-- One element of the `results` array: the target URL, the outcome of its
`downloadSingle` call, and its position in the input list (the `index`
field attached in concurrent mode). -/
structure Entry where
  url : String
  outcome : Except String Nat
  index : Nat
deriving DecidableEq, Repr

/-- The aggregate object returned by `downloadSequentially` and
`downloadConcurrently`: the (reordered) results, the error entries, and the
stats counters. -/
structure BatchResult where
  results : List Entry
  errors : List Entry
  total : Nat
  successful : Nat
  failed : Nat
  totalSize : Nat
deriving DecidableEq, Repr

/-- Sum of `stats.size` over the successful entries. -/
def sizeSum (entries : List Entry) : Nat :=
  (entries.filterMap (fun e =>
    match e.outcome with
    | .ok sz => some sz
    | .error _ => none)).sum

/-- The loop body of `downloadSequentially` (lines 73-90): each target is
awaited in turn; a success pushes a success entry; a failure pushes a
failure entry and, when `stopOnError` is set, breaks out of the loop. -/
def seqEntries (outcome : Nat → Except String Nat) (stopOnError : Bool) :
    List String → Nat → List Entry
  | [], _ => []
  | u :: rest, i =>
    match outcome i with
    | .ok sz => ⟨u, .ok sz, i⟩ :: seqEntries outcome stopOnError rest (i + 1)
    | .error e =>
      ⟨u, .error e, i⟩ ::
        (if stopOnError then [] else seqEntries outcome stopOnError rest (i + 1))

/-- downloadSequentially (lines 67-119): runs the targets in order and
aggregates counters; `successful` counts the success entries, `failed` is
the length of the error list, `total` is the number of input targets. -/
def downloadSequentially (outcome : Nat → Except String Nat)
    (urls : List String) (stopOnError : Bool) : BatchResult :=
  let entries := seqEntries outcome stopOnError urls 0
  { results := entries
    errors := entries.filter (fun e => !(e.outcome.isOk))
    total := urls.length
    successful := (entries.filter (fun e => e.outcome.isOk)).length
    failed := (entries.filter (fun e => !(e.outcome.isOk))).length
    totalSize := sizeSum entries }

/-- downloadConcurrently (lines 121-175): every task pushes its entry
(with its input `index`) into `results` in completion order; the returned
`results` array is then sorted by `index` to restore the original
target order. `order` is the completion order of the tasks. -/
def downloadConcurrently (outcome : Nat → Except String Nat)
    (urls : List String) (order : List Nat) : BatchResult :=
  let pushed := order.map (fun i => Entry.mk (urls.getD i "") (outcome i) i)
  let sorted := pushed.mergeSort (fun a b => decide (a.index ≤ b.index))
  { results := sorted
    errors := pushed.filter (fun e => !(e.outcome.isOk))
    total := urls.length
    successful := (pushed.filter (fun e => e.outcome.isOk)).length
    failed := (pushed.filter (fun e => !(e.outcome.isOk))).length
    totalSize := sizeSum pushed }

/-! ### Admission trace of the concurrent runner (lines 121-196)

A JavaScript async function body runs synchronously up to its first
`await` at the moment it is called. The arrow function passed to
`urls.map` immediately calls `downloadSingle(url)`, whose own synchronous
prefix reaches down to issuing the network request, so the `map` call on
line 128 starts every transfer before `executeConcurrently` is entered on
line 144. `executeConcurrently` receives the already-started promises; its
`await Promise.race` pacing adds no start events. The observable event
trace of the batch is therefore: one start event per target, in input
order, followed by the settlement events in completion order. -/

/-- Observable events of the concurrent batch: a transfer starting (its
network request issued) or a transfer settling (success flag attached). -/
inductive Ev where
  | start (i : Nat)
  | settle (i : Nat) (ok : Bool)
deriving DecidableEq, Repr

/-- The event trace of `downloadConcurrently` on `n` targets:
`urls.map(async ...)` issues all `n` transfers synchronously, then the
settlements arrive in completion order. -/
def downloadConcurrentlyTrace (n : Nat) (completions : List (Nat × Bool)) :
    List Ev :=
  (List.range n).map Ev.start ++ completions.map (fun p => Ev.settle p.1 p.2)

/-- Number of start events in a trace prefix. -/
def startsIn (tr : List Ev) : Nat :=
  (tr.filter (fun e =>
    match e with
    | .start _ => true
    | .settle _ _ => false)).length

/-- Number of settlement events in a trace prefix. -/
def settlesIn (tr : List Ev) : Nat :=
  (tr.filter (fun e =>
    match e with
    | .start _ => false
    | .settle _ _ => true)).length

/-- Transfers simultaneously started and not yet settled after a trace
prefix: the observation the concurrency limit is supposed to bound. -/
def inFlight (tr : List Ev) : Nat := startsIn tr - settlesIn tr

/-! ### Retry wrapper (httpDownloader.js, downloadWithRetry, lines 55-81)

The attempts are modelled as a function from the 1-based attempt number to
the attempt's outcome; `k` is `maxRetries`, `d` is `retryDelay`. The JS
variable `lastError` starts out `undefined`, modelled as `Option.none`;
`throw lastError` after the loop is the `Except.error` of the final trace. -/

/-- The outcome returned (or thrown, as `.error`) by the retry wrapper,
together with how many times the attempt was called and the list of
back-off sleeps that were performed, in order. -/
structure RetryTrace (E R : Type) where
  outcome : Except (Option E) R
  calls : Nat
  sleeps : List Nat
deriving DecidableEq, Repr

/-- The retry loop over the remaining 1-based attempt numbers: a success
returns immediately; a failure before the last attempt (`i < k`) sleeps
`d * 2 ^ (i - 1)` and continues; the failure of the last attempt only logs
and leaves the loop, after which `lastError` is thrown. -/
def retryLoop (attempts : Nat → Except E R) (d k : Nat) :
    List Nat → Option E → RetryTrace E R
  | [], last => ⟨.error last, 0, []⟩
  | i :: rest, _ =>
    match attempts i with
    | .ok r => ⟨.ok r, 1, []⟩
    | .error e =>
      let t := retryLoop attempts d k rest (some e)
      if i < k then ⟨t.outcome, t.calls + 1, d * 2 ^ (i - 1) :: t.sleeps⟩
      else ⟨t.outcome, t.calls + 1, t.sleeps⟩

/-- downloadWithRetry: run the attempt numbers 1..k with `lastError`
initially undefined. -/
def downloadWithRetry (attempts : Nat → Except E R) (k d : Nat) :
    RetryTrace E R :=
  retryLoop attempts d k (List.range' 1 k) none

/-! ### HTTP resume logic (httpDownloader.js, lines 23-34 and 104-146) -/

/-- The on-disk resume marker (FileManager.createResumeInfo, lines
183-199): the source URL, the expected total size and the bytes recorded
as downloaded. -/
structure ResumeMarker where
  url : String
  totalSize : Nat
  downloadedSize : Nat
deriving DecidableEq, Repr

/-- The `startByte` computed by `download` (lines 23-34): when resume is
enabled, a marker was read back and the destination file exists, the start
byte is the destination file's current size; in every other case it is 0.
`destSize` is `none` when the destination file does not exist. -/
def httpStartByte (enableResume : Bool) (marker : Option ResumeMarker)
    (destSize : Option Nat) : Nat :=
  if enableResume then
    match marker, destSize with
    | some _, some sz => sz
    | _, _ => 0
  else 0

/-- The Range header issued by `performDownload` (lines 104-107): present,
starting at `startByte`, exactly when `startByte > 0`. -/
def rangeHeader (startByte : Nat) : Option Nat :=
  if startByte > 0 then some startByte else none

/-- File-open mode of the destination write stream. -/
inductive WriteFlags where
  | append
  | truncate
deriving DecidableEq, Repr

/-- Write-stream flags chosen by `performDownload` (lines 143-146):
append when resuming (`startByte > 0`), truncating overwrite otherwise. -/
def writeFlags (startByte : Nat) : WriteFlags :=
  if startByte > 0 then .append else .truncate

/-- The resume rule as the claim states it, written from the claim's
words: resume from `marker.downloadedSize` only when the marker exists and
the destination file's size equals it; restart from zero otherwise. To be
compared with `httpStartByte`. -/
def claimStartByte (marker : Option ResumeMarker) (destSize : Option Nat) :
    Nat :=
  match marker, destSize with
  | some m, some sz => if sz = m.downloadedSize then sz else 0
  | _, _ => 0

/-! ### Resume-marker persistence (FileManager, lines 183-241, and
httpDownloader.js, lines 135-138)

`diskOk` abstracts whether the marker file write succeeds. -/

/-- The raw marker-file write: fails on a disk error. -/
def writeMarkerFile (diskOk : Bool) : Except String Unit :=
  if diskOk then .ok () else .error "disk error"

/-- FileManager.createResumeInfo (lines 183-199): on a write failure it
throws `Failed to create resume info`. -/
def createResumeInfo (diskOk : Bool) : Except String Unit :=
  match writeMarkerFile diskOk with
  | .ok _ => .ok ()
  | .error e => .error ("Failed to create resume info: " ++ e)

/-- FileManager.updateResumeInfo (lines 216-229): the write is wrapped in
try/catch and a failure is swallowed silently. -/
def updateResumeInfo (diskOk markerExists : Bool) : Except String Unit :=
  match (if markerExists then writeMarkerFile diskOk else .ok ()) with
  | .ok _ => .ok ()
  | .error _ => .ok ()

/-- Whether the marker-creation step lets the transfer proceed or raises
out of the response handler. -/
inductive MarkerStepResult where
  | proceeded
  | raised (msg : String)
deriving DecidableEq, Repr

/-- The marker-creation step of `performDownload` (lines 135-138): when
resume is enabled and a total size is known it calls
`fileManager.createResumeInfo` with no surrounding try/catch, so a thrown
error escapes the response handler instead of being converted into a
transfer outcome. -/
def performDownloadMarkerStep (enableResume : Bool) (totalSize : Nat)
    (diskOk : Bool) : MarkerStepResult :=
  if enableResume && decide (0 < totalSize) then
    match createResumeInfo diskOk with
    | .ok _ => .proceeded
    | .error e => .raised e
  else .proceeded

/-! ### Progress tracker (progress.js)

The three `Map` objects of `ProgressDisplay` are modelled as association
lists keyed by the download id; timestamps are milliseconds; the
floating-point speed arithmetic is modelled over `Nat` (its value never
influences which entries exist in the maps). -/

/-- Look up a key in an association list. -/
def alGet : List (String × α) → String → Option α
  | [], _ => none
  | (k, v) :: t, key => if k = key then some v else alGet t key

/-- Set a key in an association list, replacing in place or appending
(JavaScript `Map.set`). -/
def alSet : List (String × α) → String → α → List (String × α)
  | [], key, v => [(key, v)]
  | (k, w) :: t, key, v =>
    if k = key then (key, v) :: t else (k, w) :: alSet t key v

/-- Delete a key from an association list (JavaScript `Map.delete`). -/
def alDel : List (String × α) → String → List (String × α)
  | [], _ => []
  | (k, w) :: t, key => if k = key then alDel t key else (k, w) :: alDel t key

/-- The per-download record stored in the `downloads` map
(progress.js, lines 88-96). -/
structure DlInfo where
  filename : String
  totalSize : Nat
  downloaded : Nat
  speed : Nat
  lastDownloaded : Nat
  startTime : Nat
  lastDisplayUpdate : Nat
deriving DecidableEq, Repr

/-- The mutable state of `ProgressDisplay`: the three per-download maps
and the active flag. -/
structure ProgressDisplay where
  downloads : List (String × DlInfo)
  startTimes : List (String × Nat)
  lastUpdate : List (String × Nat)
  isProgressActive : Bool
deriving DecidableEq, Repr

/-- The freshly constructed tracker (progress.js, lines 4-10). -/
def initProgressDisplay : ProgressDisplay := ⟨[], [], [], false⟩

/-- startDownload (lines 88-100): inserts the id into all three maps. -/
def startDownload (s : ProgressDisplay) (id filename : String)
    (totalSize now : Nat) : ProgressDisplay :=
  { downloads := alSet s.downloads id ⟨filename, totalSize, 0, 0, 0, now, 0⟩
    startTimes := alSet s.startTimes id now
    lastUpdate := alSet s.lastUpdate id now
    isProgressActive := true }

/-- updateProgress (lines 102-141) together with the inlined
calculateSpeed (lines 45-67): an unknown id returns unchanged; otherwise
the stored record is mutated (total size, downloaded bytes), the speed
sample updates `lastUpdate` and the record when the time delta is
positive, and the display throttle stamps `lastDisplayUpdate`. -/
def updateProgress (s : ProgressDisplay) (id : String) (downloaded : Nat)
    (totalSize : Option Nat) (now : Nat) : ProgressDisplay :=
  match alGet s.downloads id with
  | none => s
  | some info0 =>
    let info1 :=
      match totalSize with
      | some ts => { info0 with totalSize := ts }
      | none => info0
    let info2 := { info1 with downloaded := downloaded }
    let lastT := (alGet s.lastUpdate id).getD now
    let timeDiff := now - lastT
    let sp := (downloaded - info2.lastDownloaded) / timeDiff
    let info3 :=
      if 0 < timeDiff then
        { info2 with lastDownloaded := downloaded, speed := sp }
      else info2
    let s1 : ProgressDisplay :=
      if 0 < timeDiff then
        { s with
            downloads := alSet s.downloads id info3
            lastUpdate := alSet s.lastUpdate id now }
      else { s with downloads := alSet s.downloads id info3 }
    if now - info3.lastDisplayUpdate < 1000 then s1
    else
      { s1 with
          downloads := alSet s1.downloads id
            { info3 with lastDisplayUpdate := now } }

/-- completeDownload (lines 143-162): an unknown id returns unchanged;
otherwise the id is deleted from all three maps. -/
def completeDownload (s : ProgressDisplay) (id : String) : ProgressDisplay :=
  match alGet s.downloads id with
  | none => s
  | some _ =>
    { downloads := alDel s.downloads id
      startTimes := alDel s.startTimes id
      lastUpdate := alDel s.lastUpdate id
      isProgressActive := false }

/-- errorDownload (lines 164-178): an unknown id returns unchanged;
otherwise the id is deleted from all three maps. -/
def errorDownload (s : ProgressDisplay) (id : String) : ProgressDisplay :=
  match alGet s.downloads id with
  | none => s
  | some _ =>
    { downloads := alDel s.downloads id
      startTimes := alDel s.startTimes id
      lastUpdate := alDel s.lastUpdate id
      isProgressActive := false }

/-- The tracker's public operations. -/
inductive POp where
  | start (id filename : String) (totalSize now : Nat)
  | update (id : String) (downloaded : Nat) (totalSize : Option Nat) (now : Nat)
  | complete (id : String)
  | error (id : String)
deriving DecidableEq, Repr

/-- Apply one tracker operation. -/
def applyPOp (s : ProgressDisplay) : POp → ProgressDisplay
  | .start id filename totalSize now => startDownload s id filename totalSize now
  | .update id downloaded totalSize now =>
      updateProgress s id downloaded totalSize now
  | .complete id => completeDownload s id
  | .error id => errorDownload s id

/-- Run a sequence of tracker operations from the initial state. -/
def runPOps (ops : List POp) : ProgressDisplay :=
  ops.foldl applyPOp initProgressDisplay

/-- Tracker invariant: any id absent from the `downloads` map is also
absent from `startTimes` and `lastUpdate`. -/
def TrackerInv (s : ProgressDisplay) : Prop :=
  ∀ id, alGet s.downloads id = none →
    alGet s.startTimes id = none ∧ alGet s.lastUpdate id = none

/-! ### Helper lemmas -/

/-- No URL is simultaneously a valid FTP URL and a valid SFTP URL: the two
predicates test the same parsed protocol against distinct literals. -/
theorem ftp_sftp_exclusive (url : String) :
    isValidFtpUrl url = false ∨ isValidSftpUrl url = false := by
  unfold isValidFtpUrl isValidSftpUrl
  cases h : parseURL url with
  | none => left; rfl
  | some u =>
    by_cases hp : u.protocol = "ftp:"
    · right
      simp only [beq_iff_eq, hp]
      decide
    · left
      simp only [beq_iff_eq]
      exact decide_eq_false hp

/-- parseLines splits the processed lines into the admitted and the warned
ones, both preserving input order. -/
theorem parseLines_spec (lines : List String) :
    parseLines lines =
      ((lines.filterMap (fun raw =>
          if isSkippedLine (jsTrim raw) then none
          else some (stripQuotes (jsTrim raw)))).filter admitsLine,
       (lines.filterMap (fun raw =>
          if isSkippedLine (jsTrim raw) then none
          else some (stripQuotes (jsTrim raw)))).filter
         (fun l => !(admitsLine l))) := by
  induction lines with
  | nil => rfl
  | cons raw rest ih =>
    by_cases hskip : isSkippedLine (jsTrim raw) = true
    · simp [parseLines, hskip, ih]
    · by_cases hadm : admitsLine (stripQuotes (jsTrim raw)) = true
      · simp [parseLines, hskip, hadm, ih]
      · simp [parseLines, hskip, hadm, ih]

/-! ### C4 — strategy selection priority -/

/-- C4: for every target string, the orchestrator's strategy selection
(`downloadSingle`, testing magnet, then video-hosting, then FTP, then
SFTP, then HTTP(S)) coincides with the selection in the spec's stated
priority order (magnet, video-hosting, SFTP, FTP, HTTP(S)), because no
target is claimed by both the FTP and the SFTP predicate; a target no
predicate claims fails with the unsupported-target error. Concrete
selections witness each strategy and the failure case. -/
theorem C4_strategy_priority :
    (∀ url : String, downloadSingleSelect url = specSelect url) ∧
    downloadSingleSelect "magnet:?xt=urn:btih:abc" = .ok .torrent ∧
    downloadSingleSelect "https://www.youtube.com/watch?v=abc" = .ok .youtube ∧
    downloadSingleSelect "sftp://user@example.com/file.bin" = .ok .sftp ∧
    downloadSingleSelect "ftp://example.com/file.bin" = .ok .ftp ∧
    downloadSingleSelect "https://example.com/file.bin" = .ok .http ∧
    downloadSingleSelect "mailto:someone" =
      .error "Unsupported URL format: mailto:someone" := by
  refine ⟨fun url => ?_, by decide, by decide, by decide, by decide,
    by decide, by decide⟩
  rcases ftp_sftp_exclusive url with h | h <;>
    simp [downloadSingleSelect, specSelect, h]

/-! ### C10 — target-list admission -/

/-- C10: after trimming, skipping blank and comment lines and stripping
surrounding quotes, `parseUrlsFromContent` admits a line exactly when it
is a valid HTTP(S) URL or a magnet URI, and warns about every other line;
syntactically valid `ftp://`, `sftp://` and video-hosting targets that
`downloadSingle` accepts as single targets are excluded from a batch. -/
theorem C10_parse_admission :
    (∀ content : String,
      (parseUrlsFromContent content).1 =
        (processedLines content).filter admitsLine ∧
      (parseUrlsFromContent content).2 =
        (processedLines content).filter (fun l => !(admitsLine l))) ∧
    parseUrlsFromContent "ftp://example.com/a.bin" =
      ([], ["ftp://example.com/a.bin"]) ∧
    downloadSingleSelect "ftp://example.com/a.bin" = .ok .ftp ∧
    parseUrlsFromContent "sftp://user@example.com/a.bin" =
      ([], ["sftp://user@example.com/a.bin"]) ∧
    downloadSingleSelect "sftp://user@example.com/a.bin" = .ok .sftp ∧
    parseUrlsFromContent "ftp://youtu.be/v123" = ([], ["ftp://youtu.be/v123"]) ∧
    downloadSingleSelect "ftp://youtu.be/v123" = .ok .youtube ∧
    parseUrlsFromContent
        "# comment\nhttps://example.com/a.zip\n'magnet:?xt=urn:btih:y'\nnot a url" =
      (["https://example.com/a.zip", "magnet:?xt=urn:btih:y"], ["not a url"]) := by
  refine ⟨fun content => ?_, by decide, by decide, by decide, by decide,
    by decide, by decide, by decide⟩
  unfold parseUrlsFromContent processedLines
  rw [parseLines_spec]
  exact ⟨rfl, rfl⟩

/-! ### C7 — HTTP resume decision -/

/-- C7 counterexample: with resume enabled, a marker recording 100 bytes
downloaded and a destination file of size 50 (a size mismatch), the
transfer does not restart from byte zero as the claim states: it issues a
byte-range request from offset 50 (the file's size, which is never
compared with the marker's `downloadedSize`) and opens the destination in
append mode; the claim's own rule would restart from zero here. -/
theorem C7_counterexample :
    httpStartByte true (some ⟨"https://example.com/f.bin", 200, 100⟩)
      (some 50) = 50 ∧
    rangeHeader (httpStartByte true
      (some ⟨"https://example.com/f.bin", 200, 100⟩) (some 50)) = some 50 ∧
    writeFlags (httpStartByte true
      (some ⟨"https://example.com/f.bin", 200, 100⟩) (some 50)) = .append ∧
    claimStartByte (some ⟨"https://example.com/f.bin", 200, 100⟩)
      (some 50) = 0 ∧ (50 : Nat) ≠ 100 := by
  decide

/-- C7 amended: when resume is enabled, the transfer issues a byte-range
request from the destination file's current size s and appends exactly
when a marker exists and the destination file exists with s > 0 — the
marker's recorded `bytesDownloaded` is never consulted; in every other
case (no marker, missing destination file, empty destination file, or
resume disabled) it starts at byte zero with no range header and
truncating overwrite. -/
theorem C7_amended_resume_rule :
    ∀ (marker : Option ResumeMarker) (destSize : Option Nat),
      rangeHeader (httpStartByte true marker destSize) =
        (match marker, destSize with
          | some _, some s => if 0 < s then some s else none
          | _, _ => none) ∧
      writeFlags (httpStartByte true marker destSize) =
        (match marker, destSize with
          | some _, some s => if 0 < s then WriteFlags.append else .truncate
          | _, _ => .truncate) ∧
      httpStartByte false marker destSize = 0 := by
  intro marker destSize
  cases marker with
  | none => cases destSize <;> simp [httpStartByte, rangeHeader, writeFlags]
  | some m =>
    cases destSize with
    | none => simp [httpStartByte, rangeHeader, writeFlags]
    | some s =>
      by_cases hs : 0 < s <;>
        simp [httpStartByte, rangeHeader, writeFlags, hs]

/-! ### C8 — marker persistence failure -/

/-- C8: a disk error while creating the resume marker is not tolerated:
`FileManager.createResumeInfo` throws, and the marker-creation step of
`performDownload` (which calls it with no surrounding try/catch) raises
out of the response handler instead of letting the transfer proceed to a
normal outcome; only `updateResumeInfo` swallows its disk error as the
claim describes. -/
theorem C8_create_marker_failure_raises :
    createResumeInfo false =
      .error "Failed to create resume info: disk error" ∧
    performDownloadMarkerStep true 1024 false =
      .raised "Failed to create resume info: disk error" ∧
    performDownloadMarkerStep true 1024 true = .proceeded ∧
    updateResumeInfo false true = .ok () := by
  decide

/-! ### C1 — concurrency limit -/

/-- Start events of all listed transfers count as starts. -/
theorem startsIn_map_start (l : List Nat) :
    startsIn (l.map Ev.start) = l.length := by
  unfold startsIn
  induction l with
  | nil => rfl
  | cons a t ih => simpa using ih

/-- A list of start events contains no settlements. -/
theorem settlesIn_map_start (l : List Nat) :
    settlesIn (l.map Ev.start) = 0 := by
  unfold settlesIn
  induction l with
  | nil => rfl
  | cons a t _ => simp

/-- C1 fails on the code: `urls.map(async ...)` runs every async body
synchronously up to its first await, issuing all transfers before
`executeConcurrently` is entered, so immediately after the map loop every
one of the n transfers is started and in flight; with 3 targets and a
concurrency limit of 2 the observation point after the map loop shows 3
transfers in flight, exceeding the limit. -/
theorem C1_all_transfers_start_eagerly :
    (∀ (n : Nat) (completions : List (Nat × Bool)),
      inFlight ((downloadConcurrentlyTrace n completions).take n) = n) ∧
    inFlight ((downloadConcurrentlyTrace 3
      [(0, false), (1, true), (2, true)]).take 3) = 3 ∧ 2 < 3 := by
  refine ⟨fun n completions => ?_, by decide, by decide⟩
  have htake : (downloadConcurrentlyTrace n completions).take n =
      (List.range n).map Ev.start := by
    unfold downloadConcurrentlyTrace
    rw [List.take_append_of_le_length (by simp),
      List.take_of_length_le (by simp)]
  rw [htake]
  unfold inFlight
  rw [startsIn_map_start, settlesIn_map_start]
  simp

/-! ### C9 — terminal calls release tracker state -/

/-- Deleting a key makes it absent. -/
theorem alGet_alDel_self (l : List (String × α)) (k : String) :
    alGet (alDel l k) k = none := by
  induction l with
  | nil => rfl
  | cons p t ih =>
    by_cases h : p.1 = k
    · simp [alDel, h, ih]
    · simp [alDel, alGet, h, ih]

/-- Deleting one key leaves other keys unchanged. -/
theorem alGet_alDel_ne (l : List (String × α)) (k j : String) (h : j ≠ k) :
    alGet (alDel l k) j = alGet l j := by
  induction l with
  | nil => rfl
  | cons p t ih =>
    by_cases hp : p.1 = k
    · have hkj : ¬ k = j := fun hc => h hc.symm
      simp [alDel, alGet, hp, hkj, ih]
    · by_cases hj2 : p.1 = j
      · simp [alDel, alGet, hp, hj2, h]
      · simp [alDel, alGet, hp, hj2, ih]

/-- Setting a key makes it present with the new value. -/
theorem alGet_alSet_self (l : List (String × α)) (k : String) (v : α) :
    alGet (alSet l k v) k = some v := by
  induction l with
  | nil => simp [alSet, alGet]
  | cons p t ih =>
    by_cases h : p.1 = k
    · simp [alSet, alGet, h]
    · simp [alSet, alGet, h, ih]

/-- Setting one key leaves other keys unchanged. -/
theorem alGet_alSet_ne (l : List (String × α)) (k j : String) (v : α)
    (h : j ≠ k) : alGet (alSet l k v) j = alGet l j := by
  induction l with
  | nil =>
    simp [alSet, alGet]
    exact fun hc => absurd hc.symm h
  | cons p t ih =>
    by_cases hp : p.1 = k
    · have hkj : ¬ k = j := fun hc => h hc.symm
      simp [alSet, alGet, hp, hkj]
    · simp [alSet, alGet, hp, ih]

/-- The invariant holds initially. -/
theorem trackerInv_init : TrackerInv initProgressDisplay := by
  intro id h
  exact ⟨rfl, rfl⟩

/-- completeDownload on an untracked id leaves the state unchanged. -/
theorem completeDownload_of_none (s : ProgressDisplay) (id : String)
    (hg : alGet s.downloads id = none) : completeDownload s id = s := by
  unfold completeDownload
  rw [hg]

/-- completeDownload on a tracked id deletes it from all three maps. -/
theorem completeDownload_of_some (s : ProgressDisplay) (id : String)
    (info : DlInfo) (hg : alGet s.downloads id = some info) :
    completeDownload s id =
      ⟨alDel s.downloads id, alDel s.startTimes id, alDel s.lastUpdate id,
        false⟩ := by
  unfold completeDownload
  rw [hg]

/-- errorDownload on an untracked id leaves the state unchanged. -/
theorem errorDownload_of_none (s : ProgressDisplay) (id : String)
    (hg : alGet s.downloads id = none) : errorDownload s id = s := by
  unfold errorDownload
  rw [hg]

/-- errorDownload on a tracked id deletes it from all three maps. -/
theorem errorDownload_of_some (s : ProgressDisplay) (id : String)
    (info : DlInfo) (hg : alGet s.downloads id = some info) :
    errorDownload s id =
      ⟨alDel s.downloads id, alDel s.startTimes id, alDel s.lastUpdate id,
        false⟩ := by
  unfold errorDownload
  rw [hg]

/-- updateProgress never touches the start-time map. -/
theorem updateProgress_startTimes (s : ProgressDisplay) (id : String)
    (downloaded : Nat) (totalSize : Option Nat) (now : Nat) :
    (updateProgress s id downloaded totalSize now).startTimes =
      s.startTimes := by
  unfold updateProgress
  cases hg : alGet s.downloads id with
  | none => rfl
  | some info0 => simp only; split_ifs <;> rfl

/-- updateProgress leaves the `downloads` entries of other ids unchanged. -/
theorem updateProgress_downloads_ne (s : ProgressDisplay) (id j : String)
    (downloaded : Nat) (totalSize : Option Nat) (now : Nat) (hid : j ≠ id) :
    alGet (updateProgress s id downloaded totalSize now).downloads j =
      alGet s.downloads j := by
  unfold updateProgress
  cases hg : alGet s.downloads id with
  | none => rfl
  | some info0 =>
    simp only
    split_ifs <;> simp [alGet_alSet_ne _ _ _ _ hid]

/-- updateProgress leaves the `lastUpdate` entries of other ids unchanged. -/
theorem updateProgress_lastUpdate_ne (s : ProgressDisplay) (id j : String)
    (downloaded : Nat) (totalSize : Option Nat) (now : Nat) (hid : j ≠ id) :
    alGet (updateProgress s id downloaded totalSize now).lastUpdate j =
      alGet s.lastUpdate j := by
  unfold updateProgress
  cases hg : alGet s.downloads id with
  | none => rfl
  | some info0 =>
    simp only
    split_ifs <;> simp [alGet_alSet_ne _ _ _ _ hid]

/-- After updateProgress on a tracked id, the id is still tracked. -/
theorem updateProgress_downloads_self (s : ProgressDisplay) (id : String)
    (downloaded : Nat) (totalSize : Option Nat) (now : Nat) (info0 : DlInfo)
    (hg : alGet s.downloads id = some info0) :
    ∃ v, alGet (updateProgress s id downloaded totalSize now).downloads id =
      some v := by
  unfold updateProgress
  rw [hg]
  simp only
  split_ifs <;> exact ⟨_, alGet_alSet_self _ _ _⟩

/-- Every tracker operation preserves the invariant. -/
theorem trackerInv_applyPOp (s : ProgressDisplay) (op : POp)
    (h : TrackerInv s) : TrackerInv (applyPOp s op) := by
  cases op with
  | start id filename totalSize now =>
    intro j hj
    simp only [applyPOp, startDownload] at hj ⊢
    by_cases hid : j = id
    · rw [hid, alGet_alSet_self] at hj
      exact absurd hj (by simp)
    · rw [alGet_alSet_ne _ _ _ _ hid] at hj
      have := h j hj
      rw [alGet_alSet_ne _ _ _ _ hid, alGet_alSet_ne _ _ _ _ hid]
      exact this
  | update id downloaded totalSize now =>
    intro j hj
    simp only [applyPOp] at hj ⊢
    cases hg : alGet s.downloads id with
    | none =>
      have hu : updateProgress s id downloaded totalSize now = s := by
        unfold updateProgress
        rw [hg]
      rw [hu] at hj ⊢
      exact h j hj
    | some info0 =>
      by_cases hid : j = id
      · subst hid
        obtain ⟨v, hv⟩ :=
          updateProgress_downloads_self s j downloaded totalSize now info0 hg
        rw [hv] at hj
        cases hj
      · rw [updateProgress_downloads_ne s id j downloaded totalSize now hid]
          at hj
        rcases h j hj with ⟨h1, h2⟩
        rw [updateProgress_startTimes,
          updateProgress_lastUpdate_ne s id j downloaded totalSize now hid]
        exact ⟨h1, h2⟩
  | complete id =>
    intro j hj
    simp only [applyPOp] at hj ⊢
    cases hg : alGet s.downloads id with
    | none =>
      rw [completeDownload_of_none s id hg] at hj ⊢
      exact h j hj
    | some info =>
      rw [completeDownload_of_some s id info hg] at hj ⊢
      by_cases hid : j = id
      · subst hid
        exact ⟨alGet_alDel_self _ _, alGet_alDel_self _ _⟩
      · rw [alGet_alDel_ne _ _ _ hid] at hj
        rcases h j hj with ⟨h1, h2⟩
        rw [alGet_alDel_ne _ _ _ hid, alGet_alDel_ne _ _ _ hid]
        exact ⟨h1, h2⟩
  | error id =>
    intro j hj
    simp only [applyPOp] at hj ⊢
    cases hg : alGet s.downloads id with
    | none =>
      rw [errorDownload_of_none s id hg] at hj ⊢
      exact h j hj
    | some info =>
      rw [errorDownload_of_some s id info hg] at hj ⊢
      by_cases hid : j = id
      · subst hid
        exact ⟨alGet_alDel_self _ _, alGet_alDel_self _ _⟩
      · rw [alGet_alDel_ne _ _ _ hid] at hj
        rcases h j hj with ⟨h1, h2⟩
        rw [alGet_alDel_ne _ _ _ hid, alGet_alDel_ne _ _ _ hid]
        exact ⟨h1, h2⟩

/-- Every reachable tracker state satisfies the invariant. -/
theorem trackerInv_foldl (ops : List POp) (s : ProgressDisplay)
    (h : TrackerInv s) : TrackerInv (ops.foldl applyPOp s) := by
  induction ops generalizing s with
  | nil => exact h
  | cons op rest ih => exact ih _ (trackerInv_applyPOp s op h)

/-- C9: after a terminal call (completeDownload or errorDownload) for a
task id, starting from any sequence of tracker operations on the fresh
tracker, no per-task entry for that id remains in any of the three maps
(`downloads`, `startTimes`, `lastUpdate`). -/
theorem C9_terminal_calls_release_state :
    ∀ (ops : List POp) (id : String),
      (alGet (completeDownload (runPOps ops) id).downloads id = none ∧
       alGet (completeDownload (runPOps ops) id).startTimes id = none ∧
       alGet (completeDownload (runPOps ops) id).lastUpdate id = none) ∧
      (alGet (errorDownload (runPOps ops) id).downloads id = none ∧
       alGet (errorDownload (runPOps ops) id).startTimes id = none ∧
       alGet (errorDownload (runPOps ops) id).lastUpdate id = none) := by
  intro ops id
  have hinv : TrackerInv (runPOps ops) :=
    trackerInv_foldl ops initProgressDisplay trackerInv_init
  constructor
  · cases hg : alGet (runPOps ops).downloads id with
    | none =>
      rw [completeDownload_of_none _ _ hg]
      exact ⟨hg, (hinv id hg).1, (hinv id hg).2⟩
    | some info =>
      rw [completeDownload_of_some _ _ info hg]
      exact ⟨alGet_alDel_self _ _, alGet_alDel_self _ _, alGet_alDel_self _ _⟩
  · cases hg : alGet (runPOps ops).downloads id with
    | none =>
      rw [errorDownload_of_none _ _ hg]
      exact ⟨hg, (hinv id hg).1, (hinv id hg).2⟩
    | some info =>
      rw [errorDownload_of_some _ _ info hg]
      exact ⟨alGet_alDel_self _ _, alGet_alDel_self _ _, alGet_alDel_self _ _⟩

/-! ### C5, C6 — retry wrapper -/

/-- Full characterization of the retry loop over the attempt numbers
`i, i+1, ..., i+m-1` (where `i+m = k+1`, so the last listed attempt number
is `k`): the call count is bounded by the list length and positive for a
non-empty list; the sleeps performed are exactly the back-off delays
before attempts `i+1 .. i+calls-1`; a success outcome is the first
non-failing attempt; an error outcome means every listed attempt failed;
and when every listed attempt fails the loop makes all `m` calls and ends
with the error of the last attempt. -/
theorem retryLoop_spec (attempts : Nat → Except E R) (d k : Nat) :
    ∀ (m i : Nat), i + m = k + 1 → 1 ≤ i → ∀ (last : Option E),
      (retryLoop attempts d k (List.range' i m) last).calls ≤ m ∧
      (0 < m → 1 ≤ (retryLoop attempts d k (List.range' i m) last).calls) ∧
      (retryLoop attempts d k (List.range' i m) last).sleeps =
        (List.range' i
          ((retryLoop attempts d k (List.range' i m) last).calls - 1)).map
          (fun a => d * 2 ^ (a - 1)) ∧
      (∀ r, (retryLoop attempts d k (List.range' i m) last).outcome = .ok r →
        attempts (i + (retryLoop attempts d k (List.range' i m) last).calls
          - 1) = .ok r ∧
        ∀ l, i ≤ l →
          l < i + (retryLoop attempts d k (List.range' i m) last).calls - 1 →
          ∃ e, attempts l = .error e) ∧
      (∀ x,
        (retryLoop attempts d k (List.range' i m) last).outcome = .error x →
        ∀ l, i ≤ l → l < i + m → ∃ e, attempts l = .error e) ∧
      ((∀ l, i ≤ l → l < i + m → ∃ e, attempts l = .error e) → 0 < m →
        (retryLoop attempts d k (List.range' i m) last).calls = m ∧
        ∃ e, attempts (i + m - 1) = .error e ∧
          (retryLoop attempts d k (List.range' i m) last).outcome =
            .error (some e)) := by
  intro m
  induction m with
  | zero =>
    intro i hik hi last
    refine ⟨Nat.le_refl 0, fun h => absurd h (by omega), rfl,
      fun r hr => ?_, fun x hx l hl1 hl2 => absurd hl2 (by omega),
      fun hall h0 => absurd h0 (by omega)⟩
    exact absurd hr (by simp [retryLoop])
  | succ m ih =>
    intro i hik hi last
    rw [List.range'_succ]
    cases hatt : attempts i with
    | ok r =>
      simp only [retryLoop, hatt]
      refine ⟨by omega, fun _ => Nat.le_refl 1, by simp,
        fun r2 hr2 => ?_, fun x hx => ?_, fun hall hpos => ?_⟩
      · have hr : r = r2 := by
          simpa using hr2
        subst hr
        constructor
        · have hidx : i + 1 - 1 = i := by omega
          rw [hidx]
          exact hatt
        · intro l hl1 hl2
          exact absurd hl2 (by omega)
      · exact absurd hx (by simp)
      · obtain ⟨e, he⟩ := hall i (Nat.le_refl i) (by omega)
        rw [hatt] at he
        exact absurd he (by simp)
    | error e =>
      obtain ⟨ih1, ih2, ih3, ih4, ih5, ih6⟩ :=
        ih (i + 1) (by omega) (by omega) (some e)
      by_cases hik2 : i < k
      · have hm : 0 < m := by omega
        simp only [retryLoop, hatt, if_pos hik2]
        refine ⟨by omega, fun _ => by omega, ?_, fun r2 hr2 => ?_,
          fun x hx l hl1 hl2 => ?_, fun hall hpos => ?_⟩
        · have hc1 : 1 ≤
              (retryLoop attempts d k (List.range' (i + 1) m) (some e)).calls :=
            ih2 hm
          obtain ⟨c, hc⟩ : ∃ c,
              (retryLoop attempts d k (List.range' (i + 1) m)
                (some e)).calls = c + 1 :=
            ⟨(retryLoop attempts d k (List.range' (i + 1) m)
              (some e)).calls - 1, by omega⟩
          rw [hc] at ih3 ⊢
          simp only [Nat.add_sub_cancel] at ih3 ⊢
          rw [List.range'_succ, List.map_cons, ← ih3]
        · obtain ⟨ha, hall⟩ := ih4 r2 hr2
          constructor
          · have hidx : i + ((retryLoop attempts d k (List.range' (i + 1) m)
                (some e)).calls + 1) - 1 =
                i + 1 + (retryLoop attempts d k (List.range' (i + 1) m)
                  (some e)).calls - 1 := by omega
            rw [hidx]
            exact ha
          · intro l hl1 hl2
            by_cases hli : l = i
            · exact ⟨e, hli ▸ hatt⟩
            · exact hall l (by omega) (by omega)
        · by_cases hli : l = i
          · exact ⟨e, hli ▸ hatt⟩
          · exact ih5 x hx l (by omega) (by omega)
        · have hall2 : ∀ l, i + 1 ≤ l → l < i + 1 + m →
              ∃ e2, attempts l = .error e2 :=
            fun l h1 h2 => hall l (by omega) (by omega)
          obtain ⟨hcalls, e2, he2, hout⟩ := ih6 hall2 hm
          refine ⟨by omega, e2, ?_, hout⟩
          have hidx : i + (m + 1) - 1 = i + 1 + m - 1 := by omega
          rw [hidx]
          exact he2
      · have hm0 : m = 0 := by omega
        subst hm0
        simp only [retryLoop, hatt, if_neg hik2]
        refine ⟨by omega, fun _ => by omega, by simp [retryLoop],
          fun r2 hr2 => ?_, fun x hx l hl1 hl2 => ?_, fun hall hpos => ?_⟩
        · exact absurd hr2 (by simp [retryLoop])
        · have hli : l = i := by omega
          exact ⟨e, hli ▸ hatt⟩
        · refine ⟨by simp [retryLoop], e, ?_, by simp [retryLoop]⟩
          have hidx : i + (0 + 1) - 1 = i := by omega
          rw [hidx]
          exact hatt

/-- C5: for every `maxAttempts = k ≥ 1`, `downloadWithRetry` calls the
attempt at least once and at most k times, the sleeps it performs are
exactly `baseDelay * 2 ^ (i - 1)` before the (i+1)-th attempt for the
attempts actually made (so in particular none after the final attempt,
the sleep list being one shorter than the call count), and a success
outcome is the first non-failing attempt, every earlier attempt having
failed. -/
theorem C5_retry_schedule (attempts : Nat → Except E R) (k d : Nat)
    (hk : 1 ≤ k) :
    (downloadWithRetry attempts k d).calls ≤ k ∧
    1 ≤ (downloadWithRetry attempts k d).calls ∧
    (downloadWithRetry attempts k d).sleeps =
      (List.range' 1 ((downloadWithRetry attempts k d).calls - 1)).map
        (fun i => d * 2 ^ (i - 1)) ∧
    (downloadWithRetry attempts k d).sleeps.length =
      (downloadWithRetry attempts k d).calls - 1 ∧
    ∀ r, (downloadWithRetry attempts k d).outcome = .ok r →
      attempts (downloadWithRetry attempts k d).calls = .ok r ∧
      ∀ l, 1 ≤ l → l < (downloadWithRetry attempts k d).calls →
        ∃ e, attempts l = .error e := by
  obtain ⟨h1, h2, h3, h4, h5, h6⟩ :=
    retryLoop_spec attempts d k k 1 (by omega) (Nat.le_refl 1) none
  simp only [downloadWithRetry]
  refine ⟨h1, h2 (by omega), h3, ?_, fun r hr => ?_⟩
  · rw [h3]
    simp
  · obtain ⟨ha, hall⟩ := h4 r hr
    have hidx : 1 + (retryLoop attempts d k (List.range' 1 k) none).calls
        - 1 = (retryLoop attempts d k (List.range' 1 k) none).calls := by
      omega
    rw [hidx] at ha hall
    exact ⟨ha, hall⟩

/-- Witness for C5 at a concrete input: three attempts allowed, the second
one succeeds. -/
theorem C5_retry_schedule_witness :
    1 ≤ 3 ∧
    ((downloadWithRetry
        (fun j => if j = 2 then (Except.ok 7 : Except String Nat)
          else .error "boom") 3 100).calls ≤ 3 ∧
     1 ≤ (downloadWithRetry
        (fun j => if j = 2 then (Except.ok 7 : Except String Nat)
          else .error "boom") 3 100).calls ∧
     (downloadWithRetry
        (fun j => if j = 2 then (Except.ok 7 : Except String Nat)
          else .error "boom") 3 100).sleeps =
       (List.range' 1 ((downloadWithRetry
          (fun j => if j = 2 then (Except.ok 7 : Except String Nat)
            else .error "boom") 3 100).calls - 1)).map
         (fun i => 100 * 2 ^ (i - 1)) ∧
     (downloadWithRetry
        (fun j => if j = 2 then (Except.ok 7 : Except String Nat)
          else .error "boom") 3 100).sleeps.length =
       (downloadWithRetry
          (fun j => if j = 2 then (Except.ok 7 : Except String Nat)
            else .error "boom") 3 100).calls - 1 ∧
     ∀ r, (downloadWithRetry
        (fun j => if j = 2 then (Except.ok 7 : Except String Nat)
          else .error "boom") 3 100).outcome = .ok r →
       (fun j => if j = 2 then (Except.ok 7 : Except String Nat)
          else .error "boom") (downloadWithRetry
          (fun j => if j = 2 then (Except.ok 7 : Except String Nat)
            else .error "boom") 3 100).calls = .ok r ∧
       ∀ l, 1 ≤ l → l < (downloadWithRetry
          (fun j => if j = 2 then (Except.ok 7 : Except String Nat)
            else .error "boom") 3 100).calls →
         ∃ e, (fun j => if j = 2 then (Except.ok 7 : Except String Nat)
            else .error "boom") l = .error e) :=
  ⟨by omega,
   C5_retry_schedule
     (fun j => if j = 2 then (Except.ok 7 : Except String Nat)
       else .error "boom") 3 100 (by omega)⟩

/-- C6 fails on the code at `maxAttempts = 0`: the for loop never runs and
`throw lastError` throws the still-undefined `lastError`, so the wrapper
neither returns a first success nor the failure of a last attempt — it
propagates an undefined error without ever calling the attempt, even
though every attempt would have succeeded. -/
theorem C6_counterexample_zero_attempts :
    (downloadWithRetry (fun _ => (Except.ok 0 : Except String Nat)) 0
      5).outcome = .error none ∧
    (downloadWithRetry (fun _ => (Except.ok 0 : Except String Nat)) 0
      5).calls = 0 :=
  ⟨rfl, rfl⟩

/-- C6 amended: for every attempt function and every `maxAttempts = k ≥ 1`
(the claim as stated fails at k = 0), the wrapper produces a terminal
outcome — either the first non-failing attempt's success, or, when every
attempt fails, exactly the failure thrown by the last (k-th) attempt. -/
theorem C6_amended_terminal_outcome (attempts : Nat → Except E R)
    (k d : Nat) (hk : 1 ≤ k) :
    (∃ r, (downloadWithRetry attempts k d).outcome = .ok r) ∨
    (∃ e, attempts k = .error e ∧
      (downloadWithRetry attempts k d).outcome = .error (some e) ∧
      ∀ l, 1 ≤ l → l ≤ k → ∃ e2, attempts l = .error e2) := by
  obtain ⟨h1, h2, h3, h4, h5, h6⟩ :=
    retryLoop_spec attempts d k k 1 (by omega) (Nat.le_refl 1) none
  simp only [downloadWithRetry]
  cases ho : (retryLoop attempts d k (List.range' 1 k) none).outcome with
  | ok r => exact Or.inl ⟨r, rfl⟩
  | error x =>
    refine Or.inr ?_
    have hall := h5 x ho
    obtain ⟨hcalls, e, he, hout⟩ := h6 hall (by omega)
    have hidx : 1 + k - 1 = k := by omega
    rw [hidx] at he
    rw [ho] at hout
    exact ⟨e, he, hout, fun l hl1 hl2 => hall l hl1 (by omega)⟩

/-! ### C2, C3 — batch result invariants and stop-on-error -/

/-- The URLs of the produced sequential entries are a prefix of the input
list: pairing entry i with target i. -/
theorem seqEntries_map_url_take (outcome : Nat → Except String Nat)
    (stop : Bool) :
    ∀ (l : List String) (i : Nat),
      (seqEntries outcome stop l i).map Entry.url =
        l.take (seqEntries outcome stop l i).length := by
  intro l
  induction l with
  | nil => intro i; rfl
  | cons u rest ih =>
    intro i
    cases ho : outcome i with
    | ok sz => simp [seqEntries, ho, List.take_succ_cons, ih]
    | error e =>
      cases stop with
      | true => simp [seqEntries, ho, List.take_succ_cons]
      | false => simp [seqEntries, ho, List.take_succ_cons, ih]

/-- Without stopOnError every target produces exactly one entry. -/
theorem seqEntries_length_no_stop (outcome : Nat → Except String Nat) :
    ∀ (l : List String) (i : Nat),
      (seqEntries outcome false l i).length = l.length := by
  intro l
  induction l with
  | nil => intro i; rfl
  | cons u rest ih =>
    intro i
    cases ho : outcome i with
    | ok sz => simp [seqEntries, ho, ih]
    | error e => simp [seqEntries, ho, ih]

/-- A filter and its negation partition a list's length. -/
theorem length_filter_not (l : List α) (p : α → Bool) :
    (l.filter p).length + (l.filter (fun a => !(p a))).length = l.length := by
  induction l with
  | nil => rfl
  | cons a t ih => cases h : p a <;> simp [List.filter_cons, h] <;> omega

/-- Indexing the whole range of a list reproduces the list. -/
theorem map_getD_range (l : List α) (dflt : α) :
    (List.range l.length).map (fun i => l.getD i dflt) = l := by
  induction l with
  | nil => rfl
  | cons a t ih =>
    rw [List.length_cons, List.range_succ_eq_map, List.map_cons,
      List.map_map, List.getD_cons_zero]
    have hcomp : ((fun i => (a :: t).getD i dflt) ∘ Nat.succ) =
        (fun i => t.getD i dflt) := by
      funext i
      simp [List.getD_cons_succ, Function.comp]
    rw [hcomp, ih]

/-- Sorting the completion-order entries by their `index` field recovers
the input-order entries: the indices are exactly `0 .. n-1`, pairwise
distinct, so the sorted-by-index arrangement is unique. -/
theorem conc_sorted_eq (urls : List String)
    (outcome : Nat → Except String Nat) (order : List Nat)
    (h : order.Perm (List.range urls.length)) :
    (order.map
        (fun i => Entry.mk (urls.getD i "") (outcome i) i)).mergeSort
        (fun a b => decide (a.index ≤ b.index)) =
      (List.range urls.length).map
        (fun i => Entry.mk (urls.getD i "") (outcome i) i) := by
  have hperm : ((order.map
      (fun i => Entry.mk (urls.getD i "") (outcome i) i)).mergeSort
      (fun a b => decide (a.index ≤ b.index))).Perm
        ((List.range urls.length).map
          (fun i => Entry.mk (urls.getD i "") (outcome i) i)) :=
    (List.mergeSort_perm _ _).trans
      (h.map (fun i => Entry.mk (urls.getD i "") (outcome i) i))
  have hle : List.Pairwise (fun a b : Entry => a.index ≤ b.index)
      ((order.map
        (fun i => Entry.mk (urls.getD i "") (outcome i) i)).mergeSort
        (fun a b => decide (a.index ≤ b.index))) := by
    have := @List.sorted_mergeSort Entry
      (fun a b : Entry => decide (a.index ≤ b.index))
      (fun a b c h1 h2 => by
        simp only [decide_eq_true_eq] at h1 h2 ⊢
        omega)
      (fun a b => by
        simp only [Bool.or_eq_true, decide_eq_true_eq]
        omega)
      (order.map (fun i => Entry.mk (urls.getD i "") (outcome i) i))
    exact this.imp (fun hab => by
      simp only [decide_eq_true_eq] at hab
      exact hab)
  have hne_can : List.Pairwise (fun a b : Entry => a.index ≠ b.index)
      ((List.range urls.length).map
        (fun i => Entry.mk (urls.getD i "") (outcome i) i)) := by
    rw [List.pairwise_map]
    exact (List.pairwise_lt_range _).imp (fun hab => Nat.ne_of_lt hab)
  have hne : List.Pairwise (fun a b : Entry => a.index ≠ b.index)
      ((order.map
        (fun i => Entry.mk (urls.getD i "") (outcome i) i)).mergeSort
        (fun a b => decide (a.index ≤ b.index))) :=
    (List.Perm.pairwise_iff (fun hxy => hxy.symm) hperm).mpr hne_can
  have hlt : List.Pairwise (fun a b : Entry => a.index < b.index)
      ((order.map
        (fun i => Entry.mk (urls.getD i "") (outcome i) i)).mergeSort
        (fun a b => decide (a.index ≤ b.index))) :=
    (hle.and hne).imp (fun hab => Nat.lt_of_le_of_ne hab.1 hab.2)
  have hlt_can : List.Pairwise (fun a b : Entry => a.index < b.index)
      ((List.range urls.length).map
        (fun i => Entry.mk (urls.getD i "") (outcome i) i)) := by
    rw [List.pairwise_map]
    exact List.pairwise_lt_range _
  haveI : IsAntisymm Entry (fun a b => a.index < b.index) :=
    ⟨fun a b h1 h2 => absurd h2 (Nat.lt_asymm h1)⟩
  exact List.eq_of_perm_of_sorted hperm hlt hlt_can

/-- C2 amended: in every batch, `successful + failed` equals the number of
attempted targets (the length of `results`), and `results[i].url` is the
i-th input target for every attempted i; when no early stop happens —
sequential mode without stopOnError, and concurrent mode under every
completion order — the attempted count is the full target count, so
`succeeded + failed = len(targets)` and `results` pairs with `targets`
index by index. (The unamended claim fails when sequential stopOnError
halts early; see the counterexample.) -/
theorem C2_batch_invariants (urls : List String)
    (outcome : Nat → Except String Nat) (stop : Bool) (order : List Nat)
    (h : order.Perm (List.range urls.length)) :
    (downloadSequentially outcome urls stop).successful +
      (downloadSequentially outcome urls stop).failed =
      (downloadSequentially outcome urls stop).results.length ∧
    (downloadSequentially outcome urls stop).results.map Entry.url =
      urls.take (downloadSequentially outcome urls stop).results.length ∧
    (downloadSequentially outcome urls false).results.map Entry.url =
      urls ∧
    (downloadSequentially outcome urls false).successful +
      (downloadSequentially outcome urls false).failed = urls.length ∧
    (downloadConcurrently outcome urls order).results.map Entry.url =
      urls ∧
    (downloadConcurrently outcome urls order).successful +
      (downloadConcurrently outcome urls order).failed = urls.length ∧
    (downloadConcurrently outcome urls order).total = urls.length := by
  refine ⟨?_, ?_, ?_, ?_, ?_, ?_, ?_⟩
  · simp only [downloadSequentially]
    exact length_filter_not _ _
  · simp only [downloadSequentially]
    exact seqEntries_map_url_take outcome stop urls 0
  · simp only [downloadSequentially]
    rw [seqEntries_map_url_take outcome false urls 0,
      seqEntries_length_no_stop outcome urls 0, List.take_length]
  · simp only [downloadSequentially]
    rw [length_filter_not _ _, seqEntries_length_no_stop outcome urls 0]
  · simp only [downloadConcurrently]
    rw [conc_sorted_eq urls outcome order h, List.map_map]
    have hcomp : (Entry.url ∘ fun i => Entry.mk (urls.getD i "")
        (outcome i) i) = (fun i => urls.getD i "") := by
      funext i
      rfl
    rw [hcomp]
    exact map_getD_range urls ""
  · simp only [downloadConcurrently]
    rw [length_filter_not _ _, List.length_map]
    rw [h.length_eq, List.length_range]
  · rfl

/-- Witness for C2 at a concrete input: two targets, the second failing,
sequential stopOnError set, concurrent completion order reversed. -/
theorem C2_batch_invariants_witness :
    ([1, 0] : List Nat).Perm (List.range (["a", "b"] : List String).length) ∧
    ((downloadSequentially
        (fun i => if i = 0 then (Except.ok 5 : Except String Nat)
          else .error "x") ["a", "b"] true).successful +
      (downloadSequentially
        (fun i => if i = 0 then (Except.ok 5 : Except String Nat)
          else .error "x") ["a", "b"] true).failed =
      (downloadSequentially
        (fun i => if i = 0 then (Except.ok 5 : Except String Nat)
          else .error "x") ["a", "b"] true).results.length ∧
     (downloadSequentially
        (fun i => if i = 0 then (Except.ok 5 : Except String Nat)
          else .error "x") ["a", "b"] true).results.map Entry.url =
      (["a", "b"] : List String).take (downloadSequentially
        (fun i => if i = 0 then (Except.ok 5 : Except String Nat)
          else .error "x") ["a", "b"] true).results.length ∧
     (downloadSequentially
        (fun i => if i = 0 then (Except.ok 5 : Except String Nat)
          else .error "x") ["a", "b"] false).results.map Entry.url =
      ["a", "b"] ∧
     (downloadSequentially
        (fun i => if i = 0 then (Except.ok 5 : Except String Nat)
          else .error "x") ["a", "b"] false).successful +
      (downloadSequentially
        (fun i => if i = 0 then (Except.ok 5 : Except String Nat)
          else .error "x") ["a", "b"] false).failed =
      (["a", "b"] : List String).length ∧
     (downloadConcurrently
        (fun i => if i = 0 then (Except.ok 5 : Except String Nat)
          else .error "x") ["a", "b"] [1, 0]).results.map Entry.url =
      ["a", "b"] ∧
     (downloadConcurrently
        (fun i => if i = 0 then (Except.ok 5 : Except String Nat)
          else .error "x") ["a", "b"] [1, 0]).successful +
      (downloadConcurrently
        (fun i => if i = 0 then (Except.ok 5 : Except String Nat)
          else .error "x") ["a", "b"] [1, 0]).failed =
      (["a", "b"] : List String).length ∧
     (downloadConcurrently
        (fun i => if i = 0 then (Except.ok 5 : Except String Nat)
          else .error "x") ["a", "b"] [1, 0]).total =
      (["a", "b"] : List String).length) :=
  ⟨by decide,
   C2_batch_invariants ["a", "b"]
     (fun i => if i = 0 then (Except.ok 5 : Except String Nat)
       else .error "x") true [1, 0] (by decide)⟩

/-- C2 fails as stated when sequential stopOnError halts early: with three
targets all failing and stopOnError set, only one target is attempted, so
`succeeded + failed = 1` while the claim demands it equal the target count
3. -/
theorem C2_counterexample_stop_on_error :
    (downloadSequentially (fun _ => (Except.error "fail" : Except String Nat))
      ["a", "b", "c"] true).successful +
      (downloadSequentially (fun _ => (Except.error "fail" : Except String Nat))
        ["a", "b", "c"] true).failed = 1 ∧
    (downloadSequentially (fun _ => (Except.error "fail" : Except String Nat))
      ["a", "b", "c"] true).total = 3 ∧
    (downloadSequentially (fun _ => (Except.error "fail" : Except String Nat))
      ["a", "b", "c"] true).results.length = 1 ∧ (1 : Nat) ≠ 3 := by
  decide

/-- Characterization of the sequential entries when the first failure
occurs at (0-based) position j of the remaining targets: the loop records
entries for positions up to j and then breaks. -/
theorem seqEntries_first_fail (outcome : Nat → Except String Nat)
    (dflt : Entry) :
    ∀ (l : List String) (i j : Nat), j < l.length →
      (∀ t, t < j → (outcome (i + t)).isOk = true) →
      (outcome (i + j)).isOk = false →
      (seqEntries outcome true l i).length = j + 1 ∧
      (seqEntries outcome true l i).map Entry.url = l.take (j + 1) ∧
      (∀ t, t < j →
        ((seqEntries outcome true l i).getD t dflt).outcome.isOk = true) ∧
      ((seqEntries outcome true l i).getD j dflt).outcome.isOk = false := by
  intro l
  induction l with
  | nil =>
    intro i j hj
    exact absurd hj (by simp)
  | cons u rest ih =>
    intro i j hj hbefore hfail
    cases j with
    | zero =>
      cases ho : outcome i with
      | ok sz =>
        rw [show i + 0 = i by omega, ho] at hfail
        exact absurd hfail (by simp [Except.isOk, Except.toBool])
      | error e =>
        refine ⟨by simp [seqEntries, ho], by simp [seqEntries, ho],
          fun t ht => absurd ht (by omega), ?_⟩
        simp [seqEntries, ho, Except.isOk, Except.toBool]
    | succ m =>
      have hok0 : (outcome i).isOk = true := by
        have := hbefore 0 (by omega)
        rwa [show i + 0 = i by omega] at this
      cases ho : outcome i with
      | error e =>
        rw [ho] at hok0
        exact absurd hok0 (by simp [Except.isOk, Except.toBool])
      | ok sz =>
        have hbefore2 : ∀ t, t < m → (outcome (i + 1 + t)).isOk = true :=
          fun t ht => by
            have := hbefore (t + 1) (by omega)
            rwa [show i + (t + 1) = i + 1 + t by omega] at this
        have hfail2 : (outcome (i + 1 + m)).isOk = false := by
          rwa [show i + (m + 1) = i + 1 + m by omega] at hfail
        obtain ⟨ih1, ih2, ih3, ih4⟩ :=
          ih (i + 1) m (by simpa using Nat.lt_of_succ_lt_succ hj)
            hbefore2 hfail2
        refine ⟨by simp [seqEntries, ho, ih1],
          by simp [seqEntries, ho, List.take_succ_cons, ih2],
          fun t ht => ?_, ?_⟩
        · cases t with
          | zero =>
            simp [seqEntries, ho, List.getD_cons_zero, Except.isOk,
              Except.toBool]
          | succ t2 =>
            simp only [seqEntries, ho, List.getD_cons_succ]
            exact ih3 t2 (by omega)
        · simp only [seqEntries, ho, List.getD_cons_succ]
          exact ih4

/-- Every event readable at a position before n in the concurrent trace is
a start event. -/
theorem trace_start_lt (n : Nat) (comps : List (Nat × Bool)) (q : Nat)
    (a : Nat) (h : (downloadConcurrentlyTrace n comps)[q]? = some (Ev.start a)) :
    q < n := by
  by_contra hq
  push_neg at hq
  unfold downloadConcurrentlyTrace at h
  rw [List.getElem?_append_right (by simpa using hq)] at h
  rw [List.getElem?_map] at h
  cases hc : comps[q - ((List.range n).map Ev.start).length]? with
  | none => rw [hc] at h; cases h
  | some p =>
    rw [hc] at h
    simp only [Option.map_some'] at h
    cases h

/-- Every settlement event in the concurrent trace sits at a position at
or beyond n. -/
theorem trace_settle_ge (n : Nat) (comps : List (Nat × Bool)) (p : Nat)
    (i : Nat) (b : Bool)
    (h : (downloadConcurrentlyTrace n comps)[p]? = some (Ev.settle i b)) :
    n ≤ p := by
  by_contra hp
  push_neg at hp
  unfold downloadConcurrentlyTrace at h
  rw [List.getElem?_append_left (by simpa using hp)] at h
  rw [List.getElem?_map, List.getElem?_range hp] at h
  simp only [Option.map_some'] at h
  cases h

/-- C3: sequential stopOnError halts after the first failure — the result
list holds exactly the targets up to and including the failing one, the
failing entry recorded as a failure and the earlier ones as successes,
with all later targets unattempted and absent; in the concurrent trace
every admission (start) precedes every settlement, so no task is admitted
after the first observed failure, and every admitted task settles
(runs to completion). -/
theorem C3_stop_on_error (urls : List String)
    (outcome : Nat → Except String Nat) (j : Nat) (hj : j < urls.length)
    (hbefore : ∀ t, t < j → (outcome t).isOk = true)
    (hfail : (outcome j).isOk = false) (n : Nat)
    (comps : List (Nat × Bool))
    (hcomps : (comps.map Prod.fst).Perm (List.range n)) :
    (downloadSequentially outcome urls true).results.length = j + 1 ∧
    (downloadSequentially outcome urls true).results.map Entry.url =
      urls.take (j + 1) ∧
    (∀ t, t < j →
      ((downloadSequentially outcome urls true).results.getD t
        (Entry.mk "" (.error "") 0)).outcome.isOk = true) ∧
    ((downloadSequentially outcome urls true).results.getD j
      (Entry.mk "" (.error "") 0)).outcome.isOk = false ∧
    (∀ (p q i : Nat) (b : Bool) (a : Nat),
      (downloadConcurrentlyTrace n comps)[p]? = some (Ev.settle i b) →
      (downloadConcurrentlyTrace n comps)[q]? = some (Ev.start a) → q < p) ∧
    (∀ i, i < n → ∃ b, Ev.settle i b ∈ downloadConcurrentlyTrace n comps) := by
  have hbefore0 : ∀ t, t < j → (outcome (0 + t)).isOk = true :=
    fun t ht => by
      have := hbefore t ht
      rwa [show (0 : Nat) + t = t by omega]
  have hfail0 : (outcome (0 + j)).isOk = false := by
    rwa [show (0 : Nat) + j = j by omega]
  obtain ⟨h1, h2, h3, h4⟩ :=
    seqEntries_first_fail outcome (Entry.mk "" (.error "") 0) urls 0 j hj
      hbefore0 hfail0
  refine ⟨h1, h2, h3, h4, fun p q i b a hsettle hstart => ?_,
    fun i hi => ?_⟩
  · exact Nat.lt_of_lt_of_le (trace_start_lt n comps q a hstart)
      (trace_settle_ge n comps p i b hsettle)
  · have hmem : i ∈ comps.map Prod.fst :=
      (hcomps.mem_iff).mpr (List.mem_range.mpr hi)
    obtain ⟨pr, hpr, hfst⟩ := List.mem_map.mp hmem
    refine ⟨pr.2, ?_⟩
    unfold downloadConcurrentlyTrace
    refine List.mem_append_right _ ?_
    have : Ev.settle i pr.2 = Ev.settle pr.1 pr.2 := by rw [hfst]
    rw [this]
    exact List.mem_map.mpr ⟨pr, hpr, rfl⟩

/-- Witness for C3 at a concrete input: three targets with the first
failure at position 1, and a two-task concurrent trace settling in
reverse order. -/
theorem C3_stop_on_error_witness :
    1 < (["a", "b", "c"] : List String).length ∧
    (∀ t, t < 1 →
      ((fun i => if i = 1 then (Except.error "x" : Except String Nat)
        else .ok 1) t).isOk = true) ∧
    ((fun i => if i = 1 then (Except.error "x" : Except String Nat)
      else .ok 1) 1).isOk = false ∧
    (([(1, true), (0, false)].map Prod.fst).Perm (List.range 2)) ∧
    ((downloadSequentially
        (fun i => if i = 1 then (Except.error "x" : Except String Nat)
          else .ok 1) ["a", "b", "c"] true).results.length = 1 + 1 ∧
     (downloadSequentially
        (fun i => if i = 1 then (Except.error "x" : Except String Nat)
          else .ok 1) ["a", "b", "c"] true).results.map Entry.url =
       (["a", "b", "c"] : List String).take (1 + 1) ∧
     (∀ t, t < 1 →
       ((downloadSequentially
          (fun i => if i = 1 then (Except.error "x" : Except String Nat)
            else .ok 1) ["a", "b", "c"] true).results.getD t
         (Entry.mk "" (.error "") 0)).outcome.isOk = true) ∧
     ((downloadSequentially
        (fun i => if i = 1 then (Except.error "x" : Except String Nat)
          else .ok 1) ["a", "b", "c"] true).results.getD 1
       (Entry.mk "" (.error "") 0)).outcome.isOk = false ∧
     (∀ (p q i : Nat) (b : Bool) (a : Nat),
       (downloadConcurrentlyTrace 2 [(1, true), (0, false)])[p]? =
         some (Ev.settle i b) →
       (downloadConcurrentlyTrace 2 [(1, true), (0, false)])[q]? =
         some (Ev.start a) → q < p) ∧
     (∀ i, i < 2 →
       ∃ b, Ev.settle i b ∈
         downloadConcurrentlyTrace 2 [(1, true), (0, false)])) :=
  ⟨by decide, by decide, by decide, by decide,
   C3_stop_on_error ["a", "b", "c"]
     (fun i => if i = 1 then (Except.error "x" : Except String Nat)
       else .ok 1) 1 (by decide) (by decide) (by decide) 2
     [(1, true), (0, false)] (by decide)⟩

/-- Witness for the amended C6 at a concrete input: two attempts allowed,
both failing. -/
theorem C6_amended_terminal_outcome_witness :
    1 ≤ 2 ∧
    ((∃ r, (downloadWithRetry
        (fun _ => (Except.error "x" : Except String Nat)) 2 1).outcome =
        .ok r) ∨
     (∃ e, (fun _ => (Except.error "x" : Except String Nat)) 2 = .error e ∧
       (downloadWithRetry
         (fun _ => (Except.error "x" : Except String Nat)) 2 1).outcome =
         .error (some e) ∧
       ∀ l, 1 ≤ l → l ≤ 2 →
         ∃ e2, (fun _ => (Except.error "x" : Except String Nat)) l =
           .error e2)) :=
  ⟨by omega,
   C6_amended_terminal_outcome
     (fun _ => (Except.error "x" : Except String Nat)) 2 1 (by omega)⟩

end JSD
